import Mathlib

/-!
Shallow embedding of the grimm-kairos automation runtime, covering the
browser-session pool (`src/tv/core/session_manager.py`), the retry/timing
primitives (`src/tv/utils/timing_utils.py`), the concurrent fan-out helpers
(`src/tv/core/async_browser.py`) and the performance monitor
(`src/tv/core/performance_monitor.py`).

Modelling conventions:
* wall-clock instants are natural numbers of seconds (`datetime.now()`
  becomes an explicit `now : Nat` argument; `timedelta` thresholds become
  second counts);
* float delays and metric values are rationals;
* Python `dict` fields become association lists, Python `set` fields become
  duplicate-free lists manipulated by set-style insert/discard;
* fallible browser creation is modelled on its success path (a creation
  failure leaves the pool unchanged in the source, which only shrinks the
  behaviours reachable by the model).
-/

namespace Kairos

/-- Association-list lookup, mirroring Python `dict` access `d.get(k)`. -/
def lookupKey {α β : Type} [DecidableEq α] (k : α) : List (α × β) → Option β
  | [] => none
  | (k2, v) :: rest => if k2 = k then some v else lookupKey k rest

/-- Association-list update of every binding of `k`, mirroring mutation of
the object stored at `d[k]`. -/
def updateKey {α β : Type} [DecidableEq α] (k : α) (f : β → β) :
    List (α × β) → List (α × β)
  | [] => []
  | (k2, v) :: rest =>
    if k2 = k then (k2, f v) :: updateKey k f rest
    else (k2, v) :: updateKey k f rest

/-- Association-list deletion, mirroring Python `del d[k]`. -/
def removeKey {α β : Type} [DecidableEq α] (k : α) :
    List (α × β) → List (α × β)
  | [] => []
  | (k2, v) :: rest =>
    if k2 = k then removeKey k rest else (k2, v) :: removeKey k rest

/-- Python `set.add`: insert if absent. -/
def setAdd {α : Type} [DecidableEq α] (x : α) (l : List α) : List α :=
  if x ∈ l then l else x :: l

/-- Python `set.remove` / `set.discard`: drop the element. -/
def setDiscard {α : Type} [DecidableEq α] (x : α) (l : List α) : List α :=
  l.filter (fun y => y ≠ x)

/-- Configuration dictionary: the keys read by `SessionPool.__init__` and
`PerformanceMonitor.__init__`, with their `config.get` defaults.
`max_errors_per_session` is a key the narrative documentation mentions; it
can be present in the dictionary, but no code under `src/` ever reads it. -/
structure Config where
  max_pool_size : Nat := 10
  min_pool_size : Nat := 2
  max_session_age_hours : Nat := 2
  max_idle_minutes : Nat := 30
  health_check_interval : Nat := 300
  max_errors_per_session : Nat := 5
  performance_monitoring : Bool := true
  collect_interval : Nat := 60
  retention_hours : Nat := 24
  max_metrics : Nat := 10000
  deriving DecidableEq

/-- Model of `BrowserSession` dataclass (`session_manager.py`, lines 21-58).  The
opaque Selenium handle is elided; `sessionId` identifies the session.  The
dataclass defaults `usage_count = 0`, `is_busy = False`, `error_count = 0`,
`max_errors = 5` are kept. -/
structure BrowserSession where
  sessionId : Nat
  createdAt : Nat
  lastUsed : Nat
  isAuthenticated : Bool := false
  usageCount : Nat := 0
  isBusy : Bool := false
  errorCount : Nat := 0
  maxErrors : Nat := 5
  deriving DecidableEq

namespace BrowserSession

/-- Model of `BrowserSession.is_expired`: `datetime.now() - created_at > max_age`. -/
def is_expired (s : BrowserSession) (maxAge now : Nat) : Bool :=
  maxAge < now - s.createdAt

/-- Model of `BrowserSession.is_idle`: `datetime.now() - last_used > max_idle`. -/
def is_idle (s : BrowserSession) (maxIdle now : Nat) : Bool :=
  maxIdle < now - s.lastUsed

/-- Model of `BrowserSession.is_healthy`: `error_count < max_errors`. -/
def is_healthy (s : BrowserSession) : Bool :=
  s.errorCount < s.maxErrors

/-- Model of `BrowserSession.mark_used`: refresh `last_used`, bump `usage_count`. -/
def mark_used (s : BrowserSession) (now : Nat) : BrowserSession :=
  { s with lastUsed := now, usageCount := s.usageCount + 1 }

/-- Model of `BrowserSession.mark_error`: bump `error_count`. -/
def mark_error (s : BrowserSession) : BrowserSession :=
  { s with errorCount := s.errorCount + 1 }

end BrowserSession

/-- Model of `SessionPool` state (`session_manager.py`, lines 61-89): the thresholds
read from the config, the id-to-session mapping `_sessions`, the available
id set `_available_sessions`, the shutdown event flag, and a counter
supplying the fresh ids that `BrowserSession.__post_init__` generates. -/
structure SessionPool where
  max_pool_size : Nat
  min_pool_size : Nat
  max_session_age : Nat
  max_idle_time : Nat
  sessions : List (Nat × BrowserSession)
  available_sessions : List Nat
  shutdown_event : Bool
  nextId : Nat
  deriving DecidableEq

namespace SessionPool

/-- Model of `SessionPool.__init__`: thresholds from the config (`max_session_age` in
hours, `max_idle` in minutes, both converted to seconds here), empty
mapping, empty available set, shutdown event clear. -/
def init (cfg : Config) : SessionPool :=
  { max_pool_size := cfg.max_pool_size
    min_pool_size := cfg.min_pool_size
    max_session_age := cfg.max_session_age_hours * 3600
    max_idle_time := cfg.max_idle_minutes * 60
    sessions := []
    available_sessions := []
    shutdown_event := false
    nextId := 0 }

/-- Model of `SessionPool._create_session` (success path): fresh session with
`created_at = last_used = now` and all dataclass defaults; the pool state
only advances its fresh-id counter (the caller inserts the session). -/
def _create_session (p : SessionPool) (now : Nat) : BrowserSession × SessionPool :=
  ({ sessionId := p.nextId, createdAt := now, lastUsed := now },
   { p with nextId := p.nextId + 1 })

/-- Retirement test used by `_cleanup_expired_sessions`:
`is_expired or is_idle or not is_healthy`.  Note the source consults no
busy flag here. -/
def shouldRetire (p : SessionPool) (s : BrowserSession) (now : Nat) : Bool :=
  s.is_expired p.max_session_age now || s.is_idle p.max_idle_time now ||
    !s.is_healthy

/-- Model of `SessionPool._remove_session`: if present, delete from the mapping and
discard from the available set (the browser handle is quit best-effort). -/
def _remove_session (p : SessionPool) (sid : Nat) : SessionPool :=
  if (lookupKey sid p.sessions).isSome then
    { p with sessions := removeKey sid p.sessions
             available_sessions := setDiscard sid p.available_sessions }
  else p

/-- Model of `SessionPool._cleanup_expired_sessions`: collect the ids failing the
retirement test, then remove each. -/
def _cleanup_expired_sessions (p : SessionPool) (now : Nat) : SessionPool :=
  ((p.sessions.filter (fun kv => shouldRetire p kv.2 now)).map
    (fun kv => kv.1)).foldl (fun q sid => q._remove_session sid) p

/-- One iteration of the `_maintain_pool_size` creation loop: create a
session, insert it into the mapping and the available set. -/
def addFreshSession (now : Nat) (q : SessionPool) : SessionPool :=
  let pr := q._create_session now
  { pr.2 with sessions := pr.2.sessions ++ [(pr.1.sessionId, pr.1)]
              available_sessions := setAdd pr.1.sessionId pr.2.available_sessions }

/-- Model of `SessionPool._maintain_pool_size`: top the pool back up to
`min_pool_size` when it has shrunk below it. -/
def _maintain_pool_size (p : SessionPool) (now : Nat) : SessionPool :=
  if p.sessions.length < p.min_pool_size then
    (List.range (p.min_pool_size - p.sessions.length)).foldl
      (fun q _ => addFreshSession now q) p
  else p

/-- The scan `for session_id in list(self._available_sessions)` inside
`get_session`: the first id whose session exists and is healthy. -/
def findAvailable (p : SessionPool) : List Nat → Option (Nat × BrowserSession)
  | [] => none
  | sid :: rest =>
    match lookupKey sid p.sessions with
    | some s => if s.is_healthy then some (sid, s) else findAvailable p rest
    | none => findAvailable p rest

/-- Model of `SessionPool.get_session`: serve a healthy available session, else
create one when under `max_pool_size`, else time out returning `None`.  The
poll loop is collapsed: with no concurrent mutator an unserviceable pass
stays unserviceable, so a non-positive timeout or an exhausted pool yields
the `None` sentinel with the state unchanged. -/
def get_session (p : SessionPool) (timeout : ℚ) (now : Nat) :
    Option BrowserSession × SessionPool :=
  if 0 < timeout then
    match findAvailable p p.available_sessions with
    | some (sid, s) =>
      let s2 := BrowserSession.mark_used { s with isBusy := true } now
      (some s2,
        { p with sessions := updateKey sid (fun _ => s2) p.sessions
                 available_sessions := setDiscard sid p.available_sessions })
    | none =>
      if p.sessions.length < p.max_pool_size then
        let pr := p._create_session now
        let s2 := BrowserSession.mark_used { pr.1 with isBusy := true } now
        (some s2, { pr.2 with sessions := pr.2.sessions ++ [(s2.sessionId, s2)] })
      else (none, p)
  else (none, p)

/-- The returned session object after `return_session` clears `is_busy`
and records the error if any. -/
def returnedSession (s : BrowserSession) (had_error : Bool) : BrowserSession :=
  if had_error then BrowserSession.mark_error { s with isBusy := false }
  else { s with isBusy := false }

/-- The pool after the returned session object's mutations have been
written through the mapping alias. -/
def poolWithReturned (p : SessionPool) (s : BrowserSession) (had_error : Bool) :
    SessionPool :=
  { p with
    sessions := updateKey s.sessionId (fun _ => returnedSession s had_error) p.sessions }

/-- Model of `SessionPool.return_session`: when the session is still in the mapping,
clear `is_busy`, record the error if any, then either re-offer the session
or retire it when it has become unhealthy.  The Python session object is
aliased by the mapping, so the mutations are written through to it. -/
def return_session (p : SessionPool) (s : BrowserSession) (had_error : Bool) :
    SessionPool :=
  if (lookupKey s.sessionId p.sessions).isSome then
    if (returnedSession s had_error).is_healthy then
      { poolWithReturned p s had_error with
        available_sessions := setAdd s.sessionId p.available_sessions }
    else
      (poolWithReturned p s had_error)._remove_session s.sessionId
  else p

/-- Model of `SessionPool.shutdown`: set the shutdown event, then remove every
session id captured by `list(self._sessions.keys())`. -/
def shutdown (p : SessionPool) : SessionPool :=
  (p.sessions.map (fun kv => kv.1)).foldl
    (fun q sid => q._remove_session sid)
    { p with shutdown_event := true }

/-- The session object handed out by the create branch of `get_session`. -/
def freshBusySession (p : SessionPool) (now : Nat) : BrowserSession :=
  BrowserSession.mark_used { (p._create_session now).1 with isBusy := true } now

/-- The session object handed out by the available branch of
`get_session`, when the scan selected the stored session `s`. -/
def servedSession (s : BrowserSession) (now : Nat) : BrowserSession :=
  BrowserSession.mark_used { s with isBusy := true } now

end SessionPool

/-- Model of `SessionManager.get_session` acquisition step (lines 285-287): ask the
pool with the default 30 s timeout, raising `RuntimeError` on `None`. -/
def SessionManager.get_session (p : SessionPool) (now : Nat) :
    Except String (BrowserSession × SessionPool) :=
  match p.get_session 30 now with
  | (some s, p1) => Except.ok (s, p1)
  | (none, _) => Except.error "Failed to get session from pool"

/-- Outcome of one call of the function handed to
`TimingManager.retry_on_failure`: a value, an exception matched by the
`exceptions` tuple (retriable), or an exception outside it (fatal, left
uncaught by the `except` clause). -/
inductive Outcome (α ε : Type) where
  | ok : α → Outcome α ε
  | retriable : ε → Outcome α ε
  | fatal : ε → Outcome α ε
  deriving DecidableEq

/-- Body of the `for attempt in range(max_retries + 1)` loop of
`TimingManager.retry_on_failure`, at index `attempt` with `remaining`
further indices to go.  The second component records the `time.sleep`
durations performed, in order. -/
def retryGo {α ε : Type} (f : Nat → Outcome α ε) (delay : ℚ) :
    Nat → Nat → Except ε α × List ℚ
  | attempt, 0 =>
    match f attempt with
    | Outcome.ok a => (Except.ok a, [])
    | Outcome.fatal e => (Except.error e, [])
    | Outcome.retriable e => (Except.error e, [])
  | attempt, r + 1 =>
    match f attempt with
    | Outcome.ok a => (Except.ok a, [])
    | Outcome.fatal e => (Except.error e, [])
    | Outcome.retriable _ =>
      let q := retryGo f delay (attempt + 1) r
      (q.1, delay :: q.2)

/-- Model of `TimingManager.retry_on_failure` (`timing_utils.py`, lines 115-147):
`f attempt` is the outcome of the `func()` call at that 0-based attempt;
the source sleeps the fixed `delay` argument after every caught failure
that still has attempts left, and re-raises the last exception after the
final one. -/
def retry_on_failure {α ε : Type} (f : Nat → Outcome α ε)
    (max_retries : Nat) (delay : ℚ) : Except ε α × List ℚ :=
  retryGo f delay 0 max_retries

/-- Model of `TimingManager.progressive_delay` (`timing_utils.py`, lines 242-251):
the slept duration `min(base_delay * 2 ** attempt, 10.0)` for the 0-based
`attempt`. -/
def progressive_delay (attempt : Nat) (base_delay : ℚ) : ℚ :=
  min (base_delay * 2 ^ attempt) 10

/-- Model of `AsyncBrowserManager.parallel_operations` (`async_browser.py`, lines
271-285): `asyncio.gather(*tasks, return_exceptions=True)` over the tasks
built in input order.  Each job is modelled by the outcome its task runs
to; `return_exceptions=True` places a failed task's exception at the
task's own index instead of cancelling its siblings, so the gather is the
in-order evaluation map. -/
def parallel_operations {α ε : Type} (operations : List (Unit → Except ε α)) :
    List (Except ε α) :=
  operations.map (fun op => op ())

/-- The `_create_single_alert` closure inside
`AsyncTradingViewClient.create_alerts_batch`: the `except` clause catches
any failure of the alert creation and converts it to the flag `False`. -/
def _create_single_alert {ε : Type} (job : Unit → Except ε Bool) :
    Unit → Except ε Bool :=
  fun _ =>
    match job () with
    | Except.ok b => Except.ok b
    | Except.error _ => Except.ok false

/-- Model of `AsyncTradingViewClient.create_alerts_batch` (`async_browser.py`, lines
393-424): gather of the wrapped per-alert closures, in input order. -/
def create_alerts_batch {ε : Type} (alertJobs : List (Unit → Except ε Bool)) :
    List (Except ε Bool) :=
  parallel_operations (alertJobs.map _create_single_alert)

/-- Model of `PerformanceMetric` dataclass (`performance_monitor.py`, lines 20-37). -/
structure PerformanceMetric where
  name : String
  value : ℚ
  unit : String
  timestamp : Nat
  tags : List (String × String) := []
  deriving DecidableEq

/-- Python `collections.deque(maxlen = n).append`: push on the right,
dropping from the left when over capacity. -/
def dequeAppend {α : Type} (maxlen : Nat) (l : List α) (x : α) : List α :=
  let l2 := l ++ [x]
  if maxlen < l2.length then l2.drop (l2.length - maxlen) else l2

/-- Model of `OperationStats` dataclass (`performance_monitor.py`, lines 40-63).
`min_time` starts at `float('inf')`, modelled by `⊤` in `WithTop ℚ`;
`recent_times` is a deque of capacity 100. -/
structure OperationStats where
  name : String
  count : Nat := 0
  total_time : ℚ := 0
  min_time : WithTop ℚ := ⊤
  max_time : ℚ := 0
  success_count : Nat := 0
  error_count : Nat := 0
  recent_times : List ℚ := []
  deriving DecidableEq

/-- Model of `OperationStats.add_timing`. -/
def OperationStats.add_timing (st : OperationStats) (duration : ℚ)
    (success : Bool) : OperationStats :=
  { st with
    count := st.count + 1
    total_time := st.total_time + duration
    min_time := min st.min_time (duration : WithTop ℚ)
    max_time := max st.max_time duration
    recent_times := dequeAppend 100 st.recent_times duration
    success_count := if success then st.success_count + 1 else st.success_count
    error_count := if success then st.error_count else st.error_count + 1 }

/-- The dictionary produced by `OperationStats.to_dict` (lines 80-93). -/
structure OperationStatsView where
  name : String
  count : Nat
  total_time : ℚ
  average_time : ℚ
  min_time : ℚ
  max_time : ℚ
  recent_average : ℚ
  success_count : Nat
  error_count : Nat
  success_rate : ℚ
  deriving DecidableEq

/-- Model of `OperationStats.to_dict`: the serialised view, with the guarded
averages of the `average_time`, `recent_average` and `success_rate`
properties and `min_time` collapsed to 0 while still infinite. -/
def OperationStats.to_dict (st : OperationStats) : OperationStatsView :=
  { name := st.name
    count := st.count
    total_time := st.total_time
    average_time := if 0 < st.count then st.total_time / st.count else 0
    min_time := match st.min_time with
      | some m => m
      | none => 0
    max_time := st.max_time
    recent_average := if st.recent_times.isEmpty then 0
      else st.recent_times.sum / st.recent_times.length
    success_count := st.success_count
    error_count := st.error_count
    success_rate := if 0 < st.count then (st.success_count : ℚ) / st.count else 0 }

/-- Model of `PerformanceMonitor` state (`performance_monitor.py`, lines 101-124):
the `performance_monitoring` switch, the collection knobs, the metric deque
and the per-operation statistics dictionary. -/
structure PerformanceMonitor where
  enabled : Bool
  collect_interval : Nat
  retention_hours : Nat
  max_metrics : Nat
  metrics : List PerformanceMetric
  operation_stats : List (String × OperationStats)
  deriving DecidableEq

namespace PerformanceMonitor

/-- Model of `PerformanceMonitor.__init__`. -/
def init (cfg : Config) : PerformanceMonitor :=
  { enabled := cfg.performance_monitoring
    collect_interval := cfg.collect_interval
    retention_hours := cfg.retention_hours
    max_metrics := cfg.max_metrics
    metrics := []
    operation_stats := [] }

/-- Model of `PerformanceMonitor.add_metric` (lines 200-222): a no-op while
disabled, otherwise append to the bounded metric deque. -/
def add_metric (m : PerformanceMonitor) (name : String) (value : ℚ)
    (unit : String) (tags : List (String × String)) (now : Nat) :
    PerformanceMonitor :=
  if m.enabled then
    let metric : PerformanceMetric :=
      { name := name, value := value, unit := unit, timestamp := now
        tags := tags }
    { m with metrics := dequeAppend m.max_metrics m.metrics metric }
  else m

/-- Model of `PerformanceMonitor.record_operation` (lines 224-248): a no-op while
disabled, otherwise upsert the operation's statistics and mirror the
timing as a metric. -/
def record_operation (m : PerformanceMonitor) (operation_name : String)
    (duration : ℚ) (success : Bool) (now : Nat) : PerformanceMonitor :=
  if m.enabled then
    let stats1 :=
      match lookupKey operation_name m.operation_stats with
      | some _ =>
        updateKey operation_name (fun st => st.add_timing duration success)
          m.operation_stats
      | none =>
        m.operation_stats ++
          [(operation_name,
            OperationStats.add_timing { name := operation_name } duration success)]
    let m1 := { m with operation_stats := stats1 }
    m1.add_metric ("operation." ++ operation_name ++ ".duration") duration
      "seconds" [("success", if success then "True" else "False")] now
  else m

/-- Model of `PerformanceMonitor.get_operation_stats` with `operation_name = None`
(lines 250-268): the dictionary of every operation's `to_dict`. -/
def get_operation_stats (m : PerformanceMonitor) :
    List (String × OperationStatsView) :=
  m.operation_stats.map (fun kv => (kv.1, kv.2.to_dict))

/-- Substring test standing for Python `name_filter in m.name`. -/
def strContains (hay needle : String) : Bool :=
  (List.range (hay.length + 1)).any (fun i => needle.isPrefixOf (hay.drop i))

/-- Model of `PerformanceMonitor.get_metrics` (lines 270-297): snapshot the deque,
apply the optional time-range and name filters, serialise.  The
serialisation `m.to_dict()` is field-for-field, so the metric records
themselves are returned. -/
def get_metrics (m : PerformanceMonitor) (name_filt : Option String)
    (time_range : Option Nat) (now : Nat) : List PerformanceMetric :=
  let ms := m.metrics
  let ms := match time_range with
    | some tr => ms.filter (fun mm => decide (now - tr ≤ mm.timestamp))
    | none => ms
  match name_filt with
  | some nf => ms.filter (fun mm => strContains mm.name nf)
  | none => ms

/-- Model of `PerformanceMonitor.reset_stats` (lines 367-373): clear the metric
deque and the operation statistics. -/
def reset_stats (m : PerformanceMonitor) : PerformanceMonitor :=
  { m with metrics := [], operation_stats := [] }

end PerformanceMonitor

/-- One externally triggerable recorder call, for stating frame
properties over arbitrary call sequences. -/
inductive RecorderCall where
  | record (operation_name : String) (duration : ℚ) (success : Bool) (now : Nat)
  | metric (name : String) (value : ℚ) (unit : String)
      (tags : List (String × String)) (now : Nat)

/-- Apply one recorder call. -/
def applyCall (m : PerformanceMonitor) : RecorderCall → PerformanceMonitor
  | RecorderCall.record operation_name duration success now =>
    m.record_operation operation_name duration success now
  | RecorderCall.metric name value unit tags now =>
    m.add_metric name value unit tags now

/-- Apply a sequence of recorder calls in order. -/
def applyCalls (m : PerformanceMonitor) (cs : List RecorderCall) :
    PerformanceMonitor :=
  cs.foldl applyCall m

/-! The pool transition system: the externally triggerable operations and
the janitor passes, from any of which the reachable states are built. -/

/-- One pool transition: a caller acquiring (`get_session`), a caller
releasing (`return_session`), a janitor cleanup pass, a janitor refill
pass, or the shutdown. -/
inductive Step : SessionPool → SessionPool → Prop where
  | acquire (p : SessionPool) (t : ℚ) (now : Nat) :
      Step p (p.get_session t now).2
  | release (p : SessionPool) (s : BrowserSession) (e : Bool) :
      Step p (p.return_session s e)
  | cleanup (p : SessionPool) (now : Nat) :
      Step p (p._cleanup_expired_sessions now)
  | maintain (p : SessionPool) (now : Nat) :
      Step p (p._maintain_pool_size now)
  | shutdownStep (p : SessionPool) : Step p p.shutdown

/-- Pool states reachable from a freshly constructed pool. -/
def Reachable (cfg : Config) (p : SessionPool) : Prop :=
  Relation.ReflTransGen Step (SessionPool.init cfg) p

/-- The size invariant carried through every transition. -/
def GoodPool (p : SessionPool) : Prop :=
  p.min_pool_size ≤ p.max_pool_size ∧
    p.sessions.length ≤ p.max_pool_size

/-- Erase the usage bookkeeping (`usage_count`, `last_used`) of a session,
keeping identity, busy flag, error state and authentication. -/
def stripUsage (s : BrowserSession) : BrowserSession :=
  { s with usageCount := 0, lastUsed := 0 }

/-- Two pool states are externally equivalent when they agree on every
configuration field, the shutdown flag, the fresh-id counter, the
available set (as a set) and the session mapping up to each session's
`usage_count` and `last_used`. -/
def ExtEquiv (p q : SessionPool) : Prop :=
  p.max_pool_size = q.max_pool_size ∧
  p.min_pool_size = q.min_pool_size ∧
  p.max_session_age = q.max_session_age ∧
  p.max_idle_time = q.max_idle_time ∧
  p.shutdown_event = q.shutdown_event ∧
  p.nextId = q.nextId ∧
  (∀ x : Nat, x ∈ p.available_sessions ↔ x ∈ q.available_sessions) ∧
  (∀ sid : Nat,
    (lookupKey sid p.sessions).map stripUsage =
      (lookupKey sid q.sessions).map stripUsage)

/-! Concrete instances used to witness or refute the specified claims. -/

/-- A leased (busy) session that has exceeded the pool age threshold but
is recently used and error-free. -/
def busyExpiredSession : BrowserSession :=
  { sessionId := 1, createdAt := 0, lastUsed := 9990, isBusy := true }

/-- A pool at default thresholds holding only `busyExpiredSession`,
currently leased (hence not in the available set). -/
def poolC1 : SessionPool :=
  { max_pool_size := 10, min_pool_size := 2, max_session_age := 7200
    max_idle_time := 1800, sessions := [(1, busyExpiredSession)]
    available_sessions := [], shutdown_event := false, nextId := 2 }

/-- A configuration carrying the documented per-session error budget key
with a non-default value. -/
def cfgC2 : Config := { max_errors_per_session := 3 }

/-- An idle, healthy, never-used stored session. -/
def idleSession3 : BrowserSession :=
  { sessionId := 3, createdAt := 0, lastUsed := 0 }

/-- A pool offering `idleSession3` in its available set. -/
def poolIdle3 : SessionPool :=
  { max_pool_size := 10, min_pool_size := 2, max_session_age := 7200
    max_idle_time := 1800, sessions := [(3, idleSession3)]
    available_sessions := [3], shutdown_event := false, nextId := 4 }

/-- The default configuration dictionary. -/
def cfgDefault : Config := {}

/-- A pool with zero capacity: every acquire times out. -/
def poolC4 : SessionPool :=
  { max_pool_size := 0, min_pool_size := 0, max_session_age := 7200
    max_idle_time := 1800, sessions := [], available_sessions := []
    shutdown_event := false, nextId := 0 }

/-- The lease handed out when `poolIdle3` serves `idleSession3` at time 5. -/
def servedIdle3 : BrowserSession := SessionPool.servedSession idleSession3 5

/-- State of `poolIdle3` right after that acquire. -/
def poolIdle3Served : SessionPool :=
  { poolIdle3 with sessions := [(3, servedIdle3)], available_sessions := [] }

/-- A retried operation whose first failure is caught by the `exceptions`
tuple and whose second failure is not. -/
def retryFatalF : Nat → Outcome Nat Nat :=
  fun i => if i = 0 then Outcome.retriable 5 else Outcome.fatal 9

/-- A retried operation failing retriably at every attempt. -/
def retryAllG : Nat → Outcome Nat Nat :=
  fun _ => Outcome.retriable 7

/-- Two concrete fan-out batches agreeing on the job at index 1. -/
def opsC7 : List (Unit → Except Nat Nat) :=
  [fun _ => Except.ok 1, fun _ => Except.error 5]

/-- Variant of `opsC7` differing only at index 0. -/
def ops2C7 : List (Unit → Except Nat Nat) :=
  [fun _ => Except.ok 2, fun _ => Except.error 5]

/-- An alert-creation job that fails. -/
def failingAlertJob : Unit → Except Nat Bool :=
  fun _ => Except.error 4

/-- A concrete alert batch whose second job fails. -/
def jobsC7 : List (Unit → Except Nat Bool) :=
  [fun _ => Except.ok true, failingAlertJob]

/-- A configuration with monitoring disabled. -/
def cfgC10 : Config := { performance_monitoring := false }

/-- A concrete sequence of recorder calls. -/
def callsC10 : List RecorderCall :=
  [RecorderCall.record "op" 2 true 5, RecorderCall.metric "m" 1 "s" [] 6]

end Kairos

namespace Kairos

/-! Association-list and set lemmas. -/

theorem lookupKey_cons {α β : Type} [DecidableEq α] (k k2 : α) (v : β)
    (l : List (α × β)) :
    lookupKey k ((k2, v) :: l) = if k2 = k then some v else lookupKey k l := rfl

theorem lookupKey_updateKey {α β : Type} [DecidableEq α] (k k2 : α) (f : β → β)
    (l : List (α × β)) :
    lookupKey k2 (updateKey k f l) =
      if k = k2 then (lookupKey k2 l).map f else lookupKey k2 l := by
  induction l with
  | nil => simp [lookupKey, updateKey]
  | cons hd tl ih =>
    obtain ⟨k3, v⟩ := hd
    simp only [updateKey]
    by_cases h3k : k3 = k
    · subst h3k
      by_cases hk2 : k3 = k2
      · subst hk2
        simp [lookupKey]
      · simp [lookupKey_cons, hk2, ih]
    · by_cases hk2 : k3 = k2
      · subst hk2
        have hne : k ≠ k3 := fun h => h3k h.symm
        simp [lookupKey_cons, h3k, hne]
      · simp [lookupKey_cons, h3k, hk2, ih]

theorem lookupKey_removeKey {α β : Type} [DecidableEq α] (k k2 : α)
    (l : List (α × β)) :
    lookupKey k2 (removeKey k l) =
      if k = k2 then none else lookupKey k2 l := by
  induction l with
  | nil => simp [lookupKey, removeKey]
  | cons hd tl ih =>
    obtain ⟨k3, v⟩ := hd
    simp only [removeKey]
    by_cases h3k : k3 = k
    · subst h3k
      by_cases hk2 : k3 = k2
      · subst hk2; simp [ih]
      · simp [lookupKey_cons, hk2, ih]
    · by_cases hk2 : k3 = k2
      · subst hk2
        have hne : k ≠ k3 := fun h => h3k h.symm
        simp [lookupKey_cons, h3k, hne]
      · simp [lookupKey_cons, h3k, hk2, ih]

theorem lookupKey_append {α β : Type} [DecidableEq α] (k : α)
    (l1 l2 : List (α × β)) :
    lookupKey k (l1 ++ l2) =
      match lookupKey k l1 with
      | some v => some v
      | none => lookupKey k l2 := by
  induction l1 with
  | nil => simp [lookupKey]
  | cons hd tl ih =>
    obtain ⟨k2, v⟩ := hd
    by_cases h : k2 = k
    · simp [lookupKey_cons, h]
    · simp [lookupKey_cons, h, ih]

theorem length_updateKey {α β : Type} [DecidableEq α] (k : α) (f : β → β)
    (l : List (α × β)) : (updateKey k f l).length = l.length := by
  induction l with
  | nil => rfl
  | cons hd tl ih =>
    obtain ⟨k2, v⟩ := hd
    by_cases h : k2 = k <;> simp [updateKey, h, ih]

theorem length_removeKey_le {α β : Type} [DecidableEq α] (k : α)
    (l : List (α × β)) : (removeKey k l).length ≤ l.length := by
  induction l with
  | nil => exact Nat.le_refl _
  | cons hd tl ih =>
    obtain ⟨k2, v⟩ := hd
    by_cases h : k2 = k
    · simp only [removeKey, h, if_pos rfl]
      exact Nat.le_succ_of_le ih
    · simp only [removeKey, if_neg h, List.length_cons]
      exact Nat.succ_le_succ ih

theorem mem_setAdd {α : Type} [DecidableEq α] (x y : α) (l : List α) :
    x ∈ setAdd y l ↔ x = y ∨ x ∈ l := by
  by_cases h : y ∈ l
  · simp only [setAdd, if_pos h]
    constructor
    · exact fun hx => Or.inr hx
    · rintro (rfl | hx)
      · exact h
      · exact hx
  · simp [setAdd, if_neg h]

theorem mem_setDiscard {α : Type} [DecidableEq α] (x y : α) (l : List α) :
    x ∈ setDiscard y l ↔ x ∈ l ∧ x ≠ y := by
  simp [setDiscard]

theorem mem_of_lookupKey {α β : Type} [DecidableEq α] {k : α} {v : β}
    {l : List (α × β)} (h : lookupKey k l = some v) : (k, v) ∈ l := by
  induction l with
  | nil => simp [lookupKey] at h
  | cons hd tl ih =>
    obtain ⟨k2, v2⟩ := hd
    rw [lookupKey_cons] at h
    by_cases h2 : k2 = k
    · subst h2
      rw [if_pos rfl] at h
      injection h with hv
      subst hv
      exact List.mem_cons_self _ _
    · rw [if_neg h2] at h
      exact List.mem_cons_of_mem _ (ih h)

theorem lookupKey_of_mem_nodup {α β : Type} [DecidableEq α] {k : α} {v : β}
    {l : List (α × β)} (hnd : (l.map Prod.fst).Nodup) (hm : (k, v) ∈ l) :
    lookupKey k l = some v := by
  induction l with
  | nil => simp at hm
  | cons hd tl ih =>
    obtain ⟨k2, v2⟩ := hd
    simp only [List.map_cons, List.nodup_cons] at hnd
    rcases List.mem_cons.mp hm with heq | hm2
    · rw [Prod.mk.injEq] at heq
      obtain ⟨hk, hv⟩ := heq
      subst hk; subst hv
      simp [lookupKey_cons]
    · have hk2 : k2 ≠ k := by
        intro h
        subst h
        exact hnd.1 (List.mem_map.mpr ⟨(k2, v), hm2, rfl⟩)
      rw [lookupKey_cons, if_neg hk2]
      exact ih hnd.2 hm2

theorem lookupKey_eq_none {α β : Type} [DecidableEq α] {k : α}
    {l : List (α × β)} :
    lookupKey k l = none ↔ ∀ v : β, (k, v) ∉ l := by
  induction l with
  | nil => simp [lookupKey]
  | cons hd tl ih =>
    obtain ⟨k2, v2⟩ := hd
    by_cases h : k2 = k
    · subst h
      constructor
      · intro hnone
        rw [lookupKey_cons, if_pos rfl] at hnone
        exact (Option.some_ne_none _ hnone).elim
      · intro hall
        exact (hall v2 (List.mem_cons_self _ _)).elim
    · rw [lookupKey_cons, if_neg h, ih]
      constructor
      · intro hall v hv
        rcases List.mem_cons.mp hv with heq | hv2
        · exact h (congrArg Prod.fst heq).symm
        · exact hall v hv2
      · intro hall v hv
        exact hall v (List.mem_cons_of_mem _ hv)

theorem mem_removeKey {α β : Type} [DecidableEq α] {kv : α × β} {k : α}
    {l : List (α × β)} :
    kv ∈ removeKey k l ↔ kv ∈ l ∧ kv.1 ≠ k := by
  induction l with
  | nil => simp [removeKey]
  | cons hd tl ih =>
    obtain ⟨k2, v⟩ := hd
    by_cases h : k2 = k
    · subst h
      rw [removeKey, if_pos rfl, ih]
      constructor
      · rintro ⟨h1, h2⟩
        exact ⟨List.mem_cons_of_mem _ h1, h2⟩
      · rintro ⟨h1, h2⟩
        rcases List.mem_cons.mp h1 with heq | h1
        · exact absurd (congrArg Prod.fst heq) h2
        · exact ⟨h1, h2⟩
    · rw [removeKey, if_neg h]
      constructor
      · intro hm
        rcases List.mem_cons.mp hm with heq | hm2
        · subst heq
          exact ⟨List.mem_cons_self _ _, h⟩
        · obtain ⟨h1, h2⟩ := ih.mp hm2
          exact ⟨List.mem_cons_of_mem _ h1, h2⟩
      · rintro ⟨h1, h2⟩
        rcases List.mem_cons.mp h1 with heq | h1
        · subst heq
          exact List.mem_cons_self _ _
        · exact List.mem_cons_of_mem _ (ih.mpr ⟨h1, h2⟩)

/-! Lemmas about session removal, cleanup and shutdown. -/

namespace SessionPool

theorem remove_session_sessions (p : SessionPool) (k sid : Nat) :
    lookupKey sid ((p._remove_session k).sessions) =
      if k = sid then none else lookupKey sid p.sessions := by
  cases hc : lookupKey k p.sessions with
  | none =>
    simp only [_remove_session, hc, Option.isSome_none, Bool.false_eq_true,
      if_false]
    by_cases h : k = sid
    · subst h
      simp [hc]
    · rw [if_neg h]
  | some v =>
    simp only [_remove_session, hc, Option.isSome_some, if_true]
    exact lookupKey_removeKey k sid p.sessions

theorem remove_session_fields (p : SessionPool) (k : Nat) :
    (p._remove_session k).max_pool_size = p.max_pool_size ∧
    (p._remove_session k).min_pool_size = p.min_pool_size ∧
    (p._remove_session k).max_session_age = p.max_session_age ∧
    (p._remove_session k).max_idle_time = p.max_idle_time ∧
    (p._remove_session k).shutdown_event = p.shutdown_event ∧
    (p._remove_session k).nextId = p.nextId := by
  unfold _remove_session
  split <;> exact ⟨rfl, rfl, rfl, rfl, rfl, rfl⟩

theorem remove_session_length_le (p : SessionPool) (k : Nat) :
    (p._remove_session k).sessions.length ≤ p.sessions.length := by
  cases hc : lookupKey k p.sessions with
  | none =>
    simp [_remove_session, hc]
  | some v =>
    simp only [_remove_session, hc, Option.isSome_some, if_true]
    exact length_removeKey_le k p.sessions

theorem foldl_remove_fields (ids : List Nat) (p : SessionPool) :
    ((ids.foldl (fun q sid => q._remove_session sid) p).max_pool_size =
        p.max_pool_size ∧
      (ids.foldl (fun q sid => q._remove_session sid) p).min_pool_size =
        p.min_pool_size ∧
      (ids.foldl (fun q sid => q._remove_session sid) p).shutdown_event =
        p.shutdown_event) := by
  induction ids generalizing p with
  | nil => exact ⟨rfl, rfl, rfl⟩
  | cons a l ih =>
    simp only [List.foldl_cons]
    obtain ⟨h1, h2, h3⟩ := ih (p._remove_session a)
    obtain ⟨g1, g2, _, _, g3, _⟩ := remove_session_fields p a
    exact ⟨h1.trans g1, h2.trans g2, h3.trans g3⟩

theorem foldl_remove_length_le (ids : List Nat) (p : SessionPool) :
    (ids.foldl (fun q sid => q._remove_session sid) p).sessions.length ≤
      p.sessions.length := by
  induction ids generalizing p with
  | nil => exact Nat.le_refl _
  | cons a l ih =>
    simp only [List.foldl_cons]
    exact Nat.le_trans (ih (p._remove_session a)) (remove_session_length_le p a)

theorem lookupKey_foldl_remove (ids : List Nat) (p : SessionPool) (sid : Nat) :
    lookupKey sid ((ids.foldl (fun q k => q._remove_session k) p).sessions) =
      if sid ∈ ids then none else lookupKey sid p.sessions := by
  induction ids generalizing p with
  | nil => simp
  | cons a l ih =>
    simp only [List.foldl_cons]
    rw [ih]
    by_cases hmem : sid ∈ l
    · simp [hmem]
    · rw [if_neg hmem, remove_session_sessions]
      by_cases ha : a = sid
      · subst ha
        simp
      · rw [if_neg ha, if_neg ?_]
        intro hc
        rcases List.mem_cons.mp hc with heq | hmem2
        · exact ha heq.symm
        · exact hmem hmem2

theorem foldl_remove_all (ids : List Nat) (q : SessionPool)
    (h : ∀ kv ∈ q.sessions, kv.1 ∈ ids) :
    (ids.foldl (fun r k => r._remove_session k) q).sessions = [] := by
  induction ids generalizing q with
  | nil =>
    cases hq : q.sessions with
    | nil => simpa using hq
    | cons kv tl =>
      have := h kv (by rw [hq]; exact List.mem_cons_self _ _)
      simp at this
  | cons a l ih =>
    simp only [List.foldl_cons]
    apply ih
    intro kv hkv
    cases hc : lookupKey a q.sessions with
    | none =>
      simp only [_remove_session, hc, Option.isSome_none, Bool.false_eq_true,
        if_false] at hkv
      have hne : kv.1 ≠ a := by
        intro he
        have := lookupKey_eq_none.mp hc kv.2
        rw [← he] at this
        exact this hkv
      rcases List.mem_cons.mp (h kv hkv) with heq | hm
      · exact absurd heq hne
      · exact hm
    | some v =>
      simp only [_remove_session, hc, Option.isSome_some, if_true] at hkv
      obtain ⟨h1, h2⟩ := mem_removeKey.mp hkv
      rcases List.mem_cons.mp (h kv h1) with heq | hm
      · exact absurd heq h2
      · exact hm

theorem cleanup_lookup (p : SessionPool) (now sid : Nat) (s : BrowserSession)
    (hnd : (p.sessions.map Prod.fst).Nodup)
    (hl : lookupKey sid p.sessions = some s) :
    lookupKey sid ((p._cleanup_expired_sessions now).sessions) =
      if shouldRetire p s now then none else some s := by
  unfold _cleanup_expired_sessions
  rw [lookupKey_foldl_remove]
  have hmem_iff :
      (sid ∈ (p.sessions.filter (fun kv => shouldRetire p kv.2 now)).map
          (fun kv => kv.1)) ↔ shouldRetire p s now = true := by
    constructor
    · intro h
      obtain ⟨kv, hkv, hfst⟩ := List.mem_map.mp h
      obtain ⟨hin, hret⟩ := List.mem_filter.mp hkv
      obtain ⟨k1, v1⟩ := kv
      simp only at hfst
      subst hfst
      have hv1 : lookupKey k1 p.sessions = some v1 :=
        lookupKey_of_mem_nodup hnd hin
      rw [hl] at hv1
      injection hv1 with hv
      subst hv
      exact hret
    · intro h
      exact List.mem_map.mpr
        ⟨(sid, s), List.mem_filter.mpr ⟨mem_of_lookupKey hl, h⟩, rfl⟩
  by_cases hr : shouldRetire p s now = true
  · rw [if_pos (hmem_iff.mpr hr), if_pos hr]
  · rw [if_neg (fun hc => hr (hmem_iff.mp hc)), if_neg hr, hl]

theorem shutdown_sessions (p : SessionPool) : p.shutdown.sessions = [] := by
  unfold shutdown
  apply foldl_remove_all
  intro kv hkv
  exact List.mem_map.mpr ⟨kv, hkv, rfl⟩

theorem shutdown_fields (p : SessionPool) :
    p.shutdown.max_pool_size = p.max_pool_size ∧
    p.shutdown.min_pool_size = p.min_pool_size ∧
    p.shutdown.shutdown_event = true := by
  unfold shutdown
  obtain ⟨h1, h2, h3⟩ := foldl_remove_fields (p.sessions.map (fun kv => kv.1))
    { p with shutdown_event := true }
  exact ⟨h1, h2, h3⟩

/-! Lemmas about `findAvailable`, `get_session`, `return_session` and
`_maintain_pool_size`. -/

theorem findAvailable_spec (p : SessionPool) (l : List Nat) (sid : Nat)
    (s : BrowserSession) (h : findAvailable p l = some (sid, s)) :
    sid ∈ l ∧ lookupKey sid p.sessions = some s ∧ s.is_healthy = true := by
  induction l with
  | nil => simp [findAvailable] at h
  | cons a rest ih =>
    rw [findAvailable] at h
    split at h
    · rename_i v hc
      by_cases hh : v.is_healthy = true
      · rw [if_pos hh] at h
        injection h with h
        rw [Prod.mk.injEq] at h
        obtain ⟨rfl, rfl⟩ := h
        exact ⟨List.mem_cons_self _ _, hc, hh⟩
      · rw [if_neg hh] at h
        obtain ⟨h1, h2, h3⟩ := ih h
        exact ⟨List.mem_cons_of_mem _ h1, h2, h3⟩
    · obtain ⟨h1, h2, h3⟩ := ih h
      exact ⟨List.mem_cons_of_mem _ h1, h2, h3⟩

theorem findAvailable_of_no_sessions (p : SessionPool) (l : List Nat)
    (h : p.sessions = []) : findAvailable p l = none := by
  induction l with
  | nil => rfl
  | cons a rest ih =>
    rw [findAvailable, h]
    exact ih

/-- Exhaustive description of `get_session`: the timed-out sentinel, the
available-session branch, the create branch, and the exhausted-pool
sentinel. -/
theorem get_session_cases (p : SessionPool) (t : ℚ) (now : Nat) :
    (¬ 0 < t ∧ p.get_session t now = (none, p)) ∨
    (∃ sid s, 0 < t ∧ findAvailable p p.available_sessions = some (sid, s) ∧
      p.get_session t now =
        (some (servedSession s now),
         { p with
            sessions := updateKey sid (fun _ => servedSession s now) p.sessions
            available_sessions := setDiscard sid p.available_sessions })) ∨
    (0 < t ∧ findAvailable p p.available_sessions = none ∧
      p.sessions.length < p.max_pool_size ∧
      p.get_session t now =
        (some (freshBusySession p now),
         { p with
            sessions := p.sessions ++
              [((freshBusySession p now).sessionId, freshBusySession p now)]
            nextId := p.nextId + 1 })) ∨
    (0 < t ∧ findAvailable p p.available_sessions = none ∧
      ¬ p.sessions.length < p.max_pool_size ∧
      p.get_session t now = (none, p)) := by
  by_cases ht : 0 < t
  · cases hf : findAvailable p p.available_sessions with
    | some pr =>
      obtain ⟨sid, s⟩ := pr
      refine Or.inr (Or.inl ⟨sid, s, ht, rfl, ?_⟩)
      unfold get_session
      rw [if_pos ht, hf]
      rfl
    | none =>
      by_cases hlen : p.sessions.length < p.max_pool_size
      · refine Or.inr (Or.inr (Or.inl ⟨ht, rfl, hlen, ?_⟩))
        unfold get_session
        rw [if_pos ht, hf]
        rw [if_pos hlen]
        rfl
      · refine Or.inr (Or.inr (Or.inr ⟨ht, rfl, hlen, ?_⟩))
        unfold get_session
        rw [if_pos ht, hf]
        rw [if_neg hlen]
  · refine Or.inl ⟨ht, ?_⟩
    unfold get_session
    rw [if_neg ht]

theorem return_session_fields (p : SessionPool) (s : BrowserSession)
    (e : Bool) :
    (p.return_session s e).max_pool_size = p.max_pool_size ∧
    (p.return_session s e).min_pool_size = p.min_pool_size := by
  unfold return_session
  by_cases hp : (lookupKey s.sessionId p.sessions).isSome = true
  · rw [if_pos hp]
    by_cases hh : (returnedSession s e).is_healthy = true
    · rw [if_pos hh]
      exact ⟨rfl, rfl⟩
    · rw [if_neg hh]
      obtain ⟨h1, h2, _, _, _, _⟩ :=
        remove_session_fields (poolWithReturned p s e) s.sessionId
      exact ⟨h1, h2⟩
  · rw [if_neg hp]
    exact ⟨rfl, rfl⟩

theorem return_session_length_le (p : SessionPool) (s : BrowserSession)
    (e : Bool) :
    (p.return_session s e).sessions.length ≤ p.sessions.length := by
  unfold return_session
  by_cases hp : (lookupKey s.sessionId p.sessions).isSome = true
  · rw [if_pos hp]
    by_cases hh : (returnedSession s e).is_healthy = true
    · rw [if_pos hh]
      simp [poolWithReturned, length_updateKey]
    · rw [if_neg hh]
      refine Nat.le_trans (remove_session_length_le _ _) ?_
      simp [poolWithReturned, length_updateKey]
  · rw [if_neg hp]

theorem addFreshSession_length (now : Nat) (q : SessionPool) :
    (addFreshSession now q).sessions.length = q.sessions.length + 1 := by
  simp [addFreshSession, _create_session]

theorem addFreshSession_fields (now : Nat) (q : SessionPool) :
    (addFreshSession now q).max_pool_size = q.max_pool_size ∧
    (addFreshSession now q).min_pool_size = q.min_pool_size := ⟨rfl, rfl⟩

theorem foldl_addFresh_length {γ : Type} (l : List γ) (now : Nat)
    (q : SessionPool) :
    ((l.foldl (fun r _ => addFreshSession now r) q).sessions.length) =
      q.sessions.length + l.length := by
  induction l generalizing q with
  | nil => rfl
  | cons a rest ih =>
    simp only [List.foldl_cons, List.length_cons]
    rw [ih, addFreshSession_length]
    omega

theorem foldl_addFresh_fields {γ : Type} (l : List γ) (now : Nat)
    (q : SessionPool) :
    ((l.foldl (fun r _ => addFreshSession now r) q).max_pool_size =
        q.max_pool_size ∧
      (l.foldl (fun r _ => addFreshSession now r) q).min_pool_size =
        q.min_pool_size) := by
  induction l generalizing q with
  | nil => exact ⟨rfl, rfl⟩
  | cons a rest ih =>
    simp only [List.foldl_cons]
    obtain ⟨h1, h2⟩ := ih (addFreshSession now q)
    exact ⟨h1, h2⟩

theorem maintain_length (p : SessionPool) (now : Nat) :
    (p._maintain_pool_size now).sessions.length =
      max p.sessions.length p.min_pool_size := by
  unfold _maintain_pool_size
  by_cases h : p.sessions.length < p.min_pool_size
  · rw [if_pos h, foldl_addFresh_length, List.length_range]
    omega
  · rw [if_neg h]
    omega

theorem maintain_fields (p : SessionPool) (now : Nat) :
    (p._maintain_pool_size now).max_pool_size = p.max_pool_size ∧
    (p._maintain_pool_size now).min_pool_size = p.min_pool_size := by
  unfold _maintain_pool_size
  split
  · exact foldl_addFresh_fields _ now p
  · exact ⟨rfl, rfl⟩

theorem cleanup_fields (p : SessionPool) (now : Nat) :
    (p._cleanup_expired_sessions now).max_pool_size = p.max_pool_size ∧
    (p._cleanup_expired_sessions now).min_pool_size = p.min_pool_size := by
  unfold _cleanup_expired_sessions
  obtain ⟨h1, h2, _⟩ := foldl_remove_fields _ p
  exact ⟨h1, h2⟩

end SessionPool

theorem step_good {p q : SessionPool} (hs : Step p q) (hg : GoodPool p) :
    GoodPool q := by
  obtain ⟨hmm, hlen⟩ := hg
  cases hs with
  | acquire t now =>
    rcases SessionPool.get_session_cases p t now with
      ⟨_, heq⟩ | ⟨sid, s, _, _, heq⟩ | ⟨_, _, hlt, heq⟩ | ⟨_, _, _, heq⟩
    · rw [heq]
      exact ⟨hmm, hlen⟩
    · rw [heq]
      exact ⟨hmm, by simpa [length_updateKey] using hlen⟩
    · rw [heq]
      refine ⟨hmm, ?_⟩
      simpa using hlt
    · rw [heq]
      exact ⟨hmm, hlen⟩
  | release s e =>
    obtain ⟨h1, h2⟩ := SessionPool.return_session_fields p s e
    rw [GoodPool, h1, h2]
    exact ⟨hmm, Nat.le_trans (SessionPool.return_session_length_le p s e) hlen⟩
  | cleanup now =>
    obtain ⟨h1, h2⟩ := SessionPool.cleanup_fields p now
    rw [GoodPool, h1, h2]
    refine ⟨hmm, Nat.le_trans ?_ hlen⟩
    unfold SessionPool._cleanup_expired_sessions
    exact SessionPool.foldl_remove_length_le _ p
  | maintain now =>
    obtain ⟨h1, h2⟩ := SessionPool.maintain_fields p now
    rw [GoodPool, h1, h2, SessionPool.maintain_length]
    exact ⟨hmm, by omega⟩
  | shutdownStep =>
    obtain ⟨h1, h2, _⟩ := SessionPool.shutdown_fields p
    rw [GoodPool, h1, h2, SessionPool.shutdown_sessions]
    exact ⟨hmm, by simp⟩

theorem reachable_good (cfg : Config) (p : SessionPool)
    (hcfg : cfg.min_pool_size ≤ cfg.max_pool_size)
    (hr : Reachable cfg p) : GoodPool p := by
  induction hr with
  | refl => exact ⟨hcfg, by simp [SessionPool.init]⟩
  | tail _ hs ih => exact step_good hs ih

/-! Lemmas about the retry primitive. -/

theorem retryGo_sleeps_const {α ε : Type} (f : Nat → Outcome α ε) (delay : ℚ) :
    ∀ (r attempt : Nat) (d : ℚ), d ∈ (retryGo f delay attempt r).2 → d = delay := by
  intro r
  induction r with
  | zero =>
    intro attempt d hd
    rw [retryGo] at hd
    cases hfa : f attempt <;> rw [hfa] at hd <;> simp at hd
  | succ r ih =>
    intro attempt d hd
    rw [retryGo] at hd
    cases hfa : f attempt <;> rw [hfa] at hd
    · simp at hd
    · simp only [List.mem_cons] at hd
      rcases hd with rfl | hd
      · rfl
      · exact ih (attempt + 1) d hd
    · simp at hd

theorem retryGo_all_retriable {α ε : Type} (f : Nat → Outcome α ε) (delay : ℚ) :
    ∀ (r attempt : Nat) (e : ε),
      (∀ i, attempt ≤ i → i < attempt + r → ∃ e2, f i = Outcome.retriable e2) →
      f (attempt + r) = Outcome.retriable e →
      retryGo f delay attempt r = (Except.error e, List.replicate r delay) := by
  intro r
  induction r with
  | zero =>
    intro attempt e _ hlast
    rw [Nat.add_zero] at hlast
    rw [retryGo, hlast]
    rfl
  | succ r ih =>
    intro attempt e hpre hlast
    obtain ⟨e0, he0⟩ := hpre attempt (Nat.le_refl _) (by omega)
    rw [retryGo, he0]
    have hrec := ih (attempt + 1) e
      (fun i h1 h2 => hpre i (by omega) (by omega))
      (by rw [show attempt + 1 + r = attempt + (r + 1) by omega]; exact hlast)
    rw [hrec]
    rfl

/-! Lemmas about the disabled recorder. -/

theorem applyCall_disabled (m : PerformanceMonitor) (h : m.enabled = false)
    (c : RecorderCall) : applyCall m c = m := by
  cases c with
  | record a b d e => simp [applyCall, PerformanceMonitor.record_operation, h]
  | metric a b d e g => simp [applyCall, PerformanceMonitor.add_metric, h]

theorem applyCalls_disabled (m : PerformanceMonitor) (h : m.enabled = false)
    (cs : List RecorderCall) : applyCalls m cs = m := by
  induction cs with
  | nil => rfl
  | cons c cs ih =>
    show (c :: cs).foldl applyCall m = m
    rw [List.foldl_cons, applyCall_disabled m h c]
    exact ih

theorem retryGo_fatal {α ε : Type} (f : Nat → Outcome α ε) (delay : ℚ) :
    ∀ (k r attempt : Nat) (e : ε), k ≤ r →
      (∀ i, attempt ≤ i → i < attempt + k → ∃ e2, f i = Outcome.retriable e2) →
      f (attempt + k) = Outcome.fatal e →
      retryGo f delay attempt r = (Except.error e, List.replicate k delay) := by
  intro k
  induction k with
  | zero =>
    intro r attempt e _ _ hfat
    rw [Nat.add_zero] at hfat
    cases r with
    | zero =>
      rw [retryGo, hfat]
      rfl
    | succ r =>
      rw [retryGo, hfat]
      rfl
  | succ k ih =>
    intro r attempt e hkr hpre hfat
    obtain ⟨r2, rfl⟩ : ∃ r2, r = r2 + 1 := ⟨k + (r - (k + 1)), by omega⟩
    obtain ⟨e0, he0⟩ := hpre attempt (Nat.le_refl _) (by omega)
    rw [retryGo, he0]
    have hrec := ih r2 (attempt + 1) e (by omega)
      (fun i h1 h2 => hpre i (by omega) (by omega))
      (by rw [show attempt + 1 + k = attempt + (k + 1) by omega]; exact hfat)
    rw [hrec]
    rfl

/-! The specified claims. -/

/-- C9: for every recorder state, calling reset and then taking a snapshot
yields an empty snapshot: the per-operation statistics mapping is empty and
the metric event list is empty (for any name or time-range filter). -/
theorem spec_c9_reset_snapshot_empty (m : PerformanceMonitor)
    (nf : Option String) (tr : Option Nat) (now : Nat) :
    PerformanceMonitor.get_operation_stats m.reset_stats = [] ∧
    PerformanceMonitor.get_metrics m.reset_stats nf tr now = [] := by
  constructor
  · rfl
  · cases tr <;> cases nf <;> rfl

/-- C10: when the recorder is constructed with monitoring disabled
(`performance_monitoring = false`), every sequence of `record_operation`
and `add_metric` calls leaves the recorder state unchanged, so any later
snapshot equals one taken before the calls. -/
theorem spec_c10_disabled_frame (cfg : Config)
    (h : cfg.performance_monitoring = false) (cs : List RecorderCall)
    (nf : Option String) (tr : Option Nat) (now : Nat) :
    applyCalls (PerformanceMonitor.init cfg) cs = PerformanceMonitor.init cfg ∧
    PerformanceMonitor.get_operation_stats
        (applyCalls (PerformanceMonitor.init cfg) cs) =
      PerformanceMonitor.get_operation_stats (PerformanceMonitor.init cfg) ∧
    PerformanceMonitor.get_metrics (applyCalls (PerformanceMonitor.init cfg) cs)
        nf tr now =
      PerformanceMonitor.get_metrics (PerformanceMonitor.init cfg) nf tr now := by
  have he : (PerformanceMonitor.init cfg).enabled = false := by
    simp [PerformanceMonitor.init, h]
  have hst := applyCalls_disabled _ he cs
  exact ⟨hst, by rw [hst], by rw [hst]⟩

/-- Witness for C10 at a concrete disabled configuration and a concrete
call sequence. -/
theorem spec_c10_witness :
    cfgC10.performance_monitoring = false ∧
    applyCalls (PerformanceMonitor.init cfgC10) callsC10 =
      PerformanceMonitor.init cfgC10 :=
  ⟨by decide, (spec_c10_disabled_frame cfgC10 (by decide) callsC10 none none 0).1⟩

/-- C6 (as specified, refuted): the specified sleep before the attempt
after the k-th failure is `base_delay * 2 ^ (k - 1)` capped at 10 s, which
for `delay = 3` and the second attempt is `progressive_delay 1 3 = 6`; the
code instead sleeps the fixed `delay = 3` before every retry. -/
theorem spec_c6_cex :
    (retry_on_failure retryAllG 2 3).2 = [3, 3] ∧
    progressive_delay 1 3 = 6 ∧ (3 : ℚ) ≠ 6 := by
  refine ⟨by decide, by norm_num [progressive_delay], by norm_num⟩

/-- C6 (amended): `retry_on_failure` sleeps the fixed `delay` argument
before every retry (so a run with k sleeps slept `replicate k delay`, not
an exponential schedule); when every attempt fails retriably the last
failure propagates after `max_retries` sleeps, and a non-retriable failure
at attempt k propagates immediately, after only the k sleeps already
performed.  The exponential `base_delay * 2 ^ attempt` schedule capped at
10 s exists only in the separate `progressive_delay` helper, which
`retry_on_failure` does not call. -/
theorem spec_c6_amended {α ε : Type} (f g : Nat → Outcome α ε) (n k : Nat)
    (delay : ℚ) (e efin : ε) (hk : k ≤ n)
    (hbefore : ∀ i, i < k → ∃ e2, f i = Outcome.retriable e2)
    (hfatal : f k = Outcome.fatal e)
    (hgpre : ∀ i, i ≤ n → ∃ e2, g i = Outcome.retriable e2)
    (hglast : g n = Outcome.retriable efin) :
    retry_on_failure f n delay = (Except.error e, List.replicate k delay) ∧
    retry_on_failure g n delay = (Except.error efin, List.replicate n delay) := by
  constructor
  · exact retryGo_fatal f delay k n 0 e hk
      (fun i _ h2 => hbefore i (by omega))
      (by rw [Nat.zero_add]; exact hfatal)
  · exact retryGo_all_retriable g delay n 0 efin
      (fun i _ h2 => hgpre i (by omega))
      (by rw [Nat.zero_add]; exact hglast)

/-- Witness for C6 (amended) at concrete operations: a fatal failure at
attempt 1 propagates after one fixed sleep, and three retriable failures
propagate the last one after two fixed sleeps. -/
theorem spec_c6_witness :
    retryFatalF 1 = Outcome.fatal 9 ∧
    retry_on_failure retryFatalF 2 3 = (Except.error 9, List.replicate 1 3) ∧
    retry_on_failure retryAllG 2 3 = (Except.error 7, List.replicate 2 3) :=
  ⟨by decide,
    (spec_c6_amended retryFatalF retryAllG 2 1 3 9 7 (by decide)
      (fun i hi => ⟨5, by
        have : i = 0 := by omega
        subst this
        rfl⟩)
      (by decide) (fun i _ => ⟨7, rfl⟩) (by decide)).1,
    (spec_c6_amended retryFatalF retryAllG 2 1 3 9 7 (by decide)
      (fun i hi => ⟨5, by
        have : i = 0 := by omega
        subst this
        rfl⟩)
      (by decide) (fun i _ => ⟨7, rfl⟩) (by decide)).2⟩

/-- C1 (as specified, refuted): the janitor cleanup pass was specified to
never remove a leased (busy) session, but `_cleanup_expired_sessions`
consults no busy flag: `poolC1` holds its single session leased
(`is_busy = true`), yet the pass at time 10000 removes it, because it is
past the age threshold. -/
theorem spec_c1_cex :
    (lookupKey 1 poolC1.sessions).map (fun s => s.isBusy) = some true ∧
    lookupKey 1 ((poolC1._cleanup_expired_sessions 10000).sessions) = none := by
  constructor
  · decide
  · decide

/-- C1 (amended): a janitor cleanup pass retains a stored session, leased
or not, exactly when it is neither expired, nor idle, nor unhealthy; a
leased session that trips any retirement threshold is removed (and its
handle closed) even while the lease is live. -/
theorem spec_c1_amended (p : SessionPool) (now sid : Nat)
    (s : BrowserSession) (hnd : (p.sessions.map Prod.fst).Nodup)
    (hl : lookupKey sid p.sessions = some s) (_hbusy : s.isBusy = true) :
    lookupKey sid ((p._cleanup_expired_sessions now).sessions) =
      if SessionPool.shouldRetire p s now then none else some s :=
  SessionPool.cleanup_lookup p now sid s hnd hl

/-- Witness for C1 (amended) at the concrete leased, expired session. -/
theorem spec_c1_witness :
    (poolC1.sessions.map Prod.fst).Nodup ∧
    lookupKey 1 poolC1.sessions = some busyExpiredSession ∧
    busyExpiredSession.isBusy = true ∧
    lookupKey 1 ((poolC1._cleanup_expired_sessions 10000).sessions) =
      (if SessionPool.shouldRetire poolC1 busyExpiredSession 10000 then none
        else some busyExpiredSession) :=
  ⟨by decide, by decide, by decide,
    spec_c1_amended poolC1 10000 1 busyExpiredSession (by decide) (by decide)
      (by decide)⟩

/-- C2 (as specified, refuted): the per-session error budget was specified
as the pool configuration key `max_errors_per_session`; with that key set
to 3, a session created by the pool that has recorded 3 errors has reached
the configured budget yet is still healthy, because `_create_session`
never reads the key and leaves the dataclass default `max_errors = 5`. -/
theorem spec_c2_cex :
    cfgC2.max_errors_per_session ≤
      ((SessionPool.init cfgC2)._create_session
          0).1.mark_error.mark_error.mark_error.errorCount ∧
    ((SessionPool.init cfgC2)._create_session
        0).1.mark_error.mark_error.mark_error.is_healthy = true := by
  constructor
  · decide
  · decide

/-- C2 (amended): every session the pool creates carries the dataclass
default error budget `max_errors = 5` (no pool configuration is read); a
session is unhealthy exactly when `error_count ≥ max_errors`; and an
acquire never returns an unhealthy session. -/
theorem spec_c2_amended (p q : SessionPool) (t : ℚ) (noww : Nat)
    (s : BrowserSession) (hget : p.get_session t noww = (some s, q)) :
    (p._create_session noww).1.maxErrors = 5 ∧
    (∀ s2 : BrowserSession,
      s2.is_healthy = false ↔ s2.maxErrors ≤ s2.errorCount) ∧
    s.is_healthy = true := by
  refine ⟨rfl, ?_, ?_⟩
  · intro s2
    simp [BrowserSession.is_healthy, Nat.not_lt]
  · rcases SessionPool.get_session_cases p t noww with
      ⟨_, heq⟩ | ⟨sid, s0, _, hfind, heq⟩ | ⟨_, _, _, heq⟩ | ⟨_, _, _, heq⟩
    · rw [heq] at hget
      simp at hget
    · rw [heq] at hget
      rw [Prod.mk.injEq, Option.some.injEq] at hget
      obtain ⟨rfl, -⟩ := hget
      have hh := (SessionPool.findAvailable_spec p _ sid s0 hfind).2.2
      simpa [SessionPool.servedSession, BrowserSession.mark_used,
        BrowserSession.is_healthy] using hh
    · rw [heq] at hget
      rw [Prod.mk.injEq, Option.some.injEq] at hget
      obtain ⟨rfl, -⟩ := hget
      rfl
    · rw [heq] at hget
      simp at hget

/-- Witness for C2 (amended) at a concrete pool serving its idle healthy
session. -/
theorem spec_c2_witness :
    poolIdle3.get_session 1 5 = (some servedIdle3, poolIdle3Served) ∧
    servedIdle3.is_healthy = true :=
  ⟨by decide,
    (spec_c2_amended poolIdle3 poolIdle3Served 1 5 servedIdle3 (by decide)).2.2⟩

/-- C3: from a freshly constructed pool whose configuration satisfies
`min_pool_size ≤ max_pool_size`, after any sequence of acquire, release and
janitor steps the live-session mapping has size at most `max_pool_size`. -/
theorem spec_c3_size_bound (cfg : Config) (p : SessionPool)
    (hcfg : cfg.min_pool_size ≤ cfg.max_pool_size) (hr : Reachable cfg p) :
    p.sessions.length ≤ p.max_pool_size :=
  (reachable_good cfg p hcfg hr).2

/-- Witness for C3 after a concrete janitor refill step from the default
configuration. -/
theorem spec_c3_witness :
    cfgDefault.min_pool_size ≤ cfgDefault.max_pool_size ∧
    ((SessionPool.init cfgDefault)._maintain_pool_size 0).sessions.length ≤
      ((SessionPool.init cfgDefault)._maintain_pool_size 0).max_pool_size :=
  ⟨by decide,
    spec_c3_size_bound cfgDefault _ (by decide)
      (Relation.ReflTransGen.tail Relation.ReflTransGen.refl
        (Step.maintain _ 0))⟩

/-- C4 (as specified, refuted): an acquire that cannot be served was
specified to fail with an `AcquireTimeout` error; on the zero-capacity
pool the timed-out `SessionPool.get_session` instead returns the silent
sentinel `None` with the pool unchanged, and the `SessionManager` wrapper
converts it to a generic `RuntimeError`. -/
theorem spec_c4_cex :
    poolC4.get_session 30 0 = (none, poolC4) ∧
    SessionManager.get_session poolC4 0 =
      Except.error "Failed to get session from pool" := by
  rcases SessionPool.get_session_cases poolC4 30 0 with
    ⟨hnt, _⟩ | ⟨sid, s, _, hfind, _⟩ | ⟨_, _, hlt, _⟩ | ⟨_, _, _, heq⟩
  · exact absurd (by norm_num) hnt
  · rw [show SessionPool.findAvailable poolC4 poolC4.available_sessions =
      none from rfl] at hfind
    simp at hfind
  · exact absurd hlt (by decide)
  · refine ⟨heq, ?_⟩
    unfold SessionManager.get_session
    rw [heq]

/-- C4 (amended): every acquire with the default 30 s timeout either
returns an available session (which the `SessionManager` wrapper passes
through), or, once the timeout elapses, yields the sentinel `None` with
the pool unchanged, which the wrapper raises as the generic
`RuntimeError("Failed to get session from pool")` rather than a dedicated
`AcquireTimeout` error. -/
theorem spec_c4_amended (p : SessionPool) (noww : Nat) :
    (∃ s q, p.get_session 30 noww = (some s, q) ∧
      SessionManager.get_session p noww = Except.ok (s, q)) ∨
    (p.get_session 30 noww = (none, p) ∧
      SessionManager.get_session p noww =
        Except.error "Failed to get session from pool") := by
  rcases SessionPool.get_session_cases p 30 noww with
    ⟨hnt, _⟩ | ⟨sid, s, _, _, heq⟩ | ⟨_, _, _, heq⟩ | ⟨_, _, _, heq⟩
  · exact absurd (by norm_num) hnt
  · refine Or.inl ⟨_, _, heq, ?_⟩
    unfold SessionManager.get_session
    rw [heq]
  · refine Or.inl ⟨_, _, heq, ?_⟩
    unfold SessionManager.get_session
    rw [heq]
  · refine Or.inr ⟨heq, ?_⟩
    unfold SessionManager.get_session
    rw [heq]

/-- C5 (as specified, refuted): after `shutdown` has drained the pool, a
subsequent acquire was specified to fail fast with `PoolShutDown` without
creating or returning a session; on the concrete drained pool the acquire
instead creates and returns a fresh session, because `get_session`
performs no shutdown check. -/
theorem spec_c5_cex :
    poolIdle3.shutdown.shutdown_event = true ∧
    (poolIdle3.shutdown.get_session 30 7).1.isSome = true ∧
    (poolIdle3.shutdown.get_session 30 7).2.sessions.length = 1 := by
  refine ⟨by decide, by decide, by decide⟩

/-- C5 (amended): `shutdown` sets the shutdown flag and drains every
session, but `get_session` never consults the flag: on any pool with
positive capacity, an acquire with a positive timeout after shutdown
creates and returns a fresh busy session instead of failing with
`PoolShutDown`. -/
theorem spec_c5_amended (p : SessionPool) (t : ℚ) (noww : Nat)
    (ht : 0 < t) (hmax : 0 < p.max_pool_size) :
    p.shutdown.sessions = [] ∧
    p.shutdown.shutdown_event = true ∧
    ∃ q, p.shutdown.get_session t noww =
        (some (SessionPool.freshBusySession p.shutdown noww), q) ∧
      q.sessions = [((SessionPool.freshBusySession p.shutdown noww).sessionId,
        SessionPool.freshBusySession p.shutdown noww)] := by
  obtain ⟨hmaxe, _, hflag⟩ := SessionPool.shutdown_fields p
  have hses := SessionPool.shutdown_sessions p
  refine ⟨hses, hflag, ?_⟩
  rcases SessionPool.get_session_cases p.shutdown t noww with
    ⟨hnt, _⟩ | ⟨sid, s, _, hfind, _⟩ | ⟨_, _, _, heq⟩ | ⟨_, _, hlen, _⟩
  · exact absurd ht hnt
  · exfalso
    obtain ⟨_, hlk, _⟩ := SessionPool.findAvailable_spec _ _ _ _ hfind
    rw [hses] at hlk
    simp [lookupKey] at hlk
  · refine ⟨_, heq, ?_⟩
    simp [hses]
  · exfalso
    rw [hses, hmaxe] at hlen
    exact hlen (by simpa using hmax)

/-- C8: acquiring a healthy idle session and then releasing it without an
error returns the pool to a state externally equivalent to the initial
one — same session mapping, available set, busy flags and error counts —
differing only in that session's `usage_count` and `last_used`. -/
theorem spec_c8_roundtrip (p : SessionPool) (t : ℚ) (noww sid : Nat)
    (s s2 : BrowserSession) (q : SessionPool)
    (hfind : SessionPool.findAvailable p p.available_sessions = some (sid, s))
    (hid : s.sessionId = sid) (hbusy : s.isBusy = false)
    (hget : p.get_session t noww = (some s2, q)) :
    ExtEquiv (q.return_session s2 false) p := by
  obtain ⟨hmem, hlook, hheal⟩ := SessionPool.findAvailable_spec p _ sid s hfind
  rcases SessionPool.get_session_cases p t noww with
    ⟨_, heq⟩ | ⟨sid2, s3, _, hfind2, heq⟩ | ⟨_, hfn, _, heq⟩ | ⟨_, hfn, _, heq⟩
  · rw [heq] at hget
    simp at hget
  · rw [hfind] at hfind2
    rw [Option.some.injEq, Prod.mk.injEq] at hfind2
    obtain ⟨rfl, rfl⟩ := hfind2
    rw [heq] at hget
    rw [Prod.mk.injEq, Option.some.injEq] at hget
    obtain ⟨rfl, rfl⟩ := hget
    have hS2id : (SessionPool.servedSession s noww).sessionId = sid := hid
    have hS2look : lookupKey (SessionPool.servedSession s noww).sessionId
        (updateKey sid (fun _ => SessionPool.servedSession s noww) p.sessions) =
        some (SessionPool.servedSession s noww) := by
      rw [hS2id, lookupKey_updateKey, if_pos rfl, hlook]
      rfl
    have hret : SessionPool.returnedSession (SessionPool.servedSession s noww)
        false = { SessionPool.servedSession s noww with isBusy := false } := rfl
    have hrh : (SessionPool.returnedSession (SessionPool.servedSession s noww)
        false).is_healthy = true := by
      rw [hret]
      simpa [SessionPool.servedSession, BrowserSession.mark_used,
        BrowserSession.is_healthy] using hheal
    unfold SessionPool.return_session
    rw [if_pos (by rw [hS2look]; rfl), if_pos hrh]
    refine ⟨rfl, rfl, rfl, rfl, rfl, rfl, ?_, ?_⟩
    · intro x
      show x ∈ setAdd (SessionPool.servedSession s noww).sessionId
        (setDiscard sid p.available_sessions) ↔ x ∈ p.available_sessions
      rw [hS2id, mem_setAdd, mem_setDiscard]
      by_cases hx : x = sid
      · subst hx
        simp [hmem]
      · simp [hx]
    · intro sid2
      show (lookupKey sid2 (updateKey (SessionPool.servedSession s
          noww).sessionId (fun _ => SessionPool.returnedSession
          (SessionPool.servedSession s noww) false) (updateKey sid
          (fun _ => SessionPool.servedSession s noww) p.sessions))).map
          stripUsage = (lookupKey sid2 p.sessions).map stripUsage
      rw [hS2id, lookupKey_updateKey, lookupKey_updateKey]
      by_cases h2 : sid = sid2
      · subst h2
        rw [if_pos rfl, if_pos rfl, hlook]
        have hstrip : stripUsage (SessionPool.returnedSession
            (SessionPool.servedSession s noww) false) = stripUsage s := by
          obtain ⟨b1, b2, b3, b4, b5, b6, b7, b8⟩ := s
          have hb : b6 = false := hbusy
          subst hb
          rfl
        simp only [Option.map_some']
        rw [hstrip]
      · rw [if_neg h2, if_neg h2]
  · rw [hfn] at hfind
    simp at hfind
  · rw [hfn] at hfind
    simp at hfind

/-- Witness for C8 at the concrete one-session pool: acquire at time 5
then release without error, landing externally equivalent to the start. -/
theorem spec_c8_witness :
    SessionPool.findAvailable poolIdle3 poolIdle3.available_sessions =
      some (3, idleSession3) ∧
    idleSession3.isBusy = false ∧
    poolIdle3.get_session 1 5 = (some servedIdle3, poolIdle3Served) ∧
    ExtEquiv (poolIdle3Served.return_session servedIdle3 false) poolIdle3 :=
  ⟨by decide, by decide, by decide,
    spec_c8_roundtrip poolIdle3 1 5 3 idleSession3 servedIdle3 poolIdle3Served
      (by decide) (by decide) (by decide) (by decide)⟩

/-- Witness for C5 (amended) at a concrete one-session pool. -/
theorem spec_c5_witness :
    (0 : ℚ) < 30 ∧ 0 < poolIdle3.max_pool_size ∧
    poolIdle3.shutdown.sessions = [] ∧
    poolIdle3.shutdown.shutdown_event = true :=
  ⟨by norm_num, by decide,
    (spec_c5_amended poolIdle3 30 7 (by norm_num) (by decide)).1,
    (spec_c5_amended poolIdle3 30 7 (by norm_num) (by decide)).2.1⟩

/-- C7: a fan-out of n ordered jobs returns a result vector of length n
whose i-th entry is the outcome of the i-th job; a job's failure is
recorded at its own index (for the alert batch, as the flag `False`) and
does not affect any sibling's entry. -/
theorem spec_c7_fanout {α ε : Type} (ops ops2 : List (Unit → Except ε α))
    (jobs : List (Unit → Except ε Bool)) (i : Nat)
    (j : Unit → Except ε Bool) (e : ε)
    (hagree : ops[i]? = ops2[i]?)
    (hj : jobs[i]? = some j) (hje : j () = Except.error e) :
    (parallel_operations ops).length = ops.length ∧
    (parallel_operations ops)[i]? = (ops[i]?).map (fun op => op ()) ∧
    (parallel_operations ops)[i]? = (parallel_operations ops2)[i]? ∧
    (create_alerts_batch jobs).length = jobs.length ∧
    (create_alerts_batch jobs)[i]? = some (Except.ok false) := by
  refine ⟨by simp [parallel_operations], ?_, ?_, ?_, ?_⟩
  · simp [parallel_operations]
  · simp [parallel_operations, hagree]
  · simp [create_alerts_batch, parallel_operations]
  · simp [create_alerts_batch, parallel_operations, hj, _create_single_alert,
      hje]

/-- Witness for C7 at concrete batches: two jobs, the second failing. -/
theorem spec_c7_witness :
    opsC7[1]? = ops2C7[1]? ∧
    (parallel_operations opsC7).length = opsC7.length ∧
    (create_alerts_batch jobsC7)[1]? = some (Except.ok false) :=
  ⟨rfl,
    (spec_c7_fanout opsC7 ops2C7 jobsC7 1 failingAlertJob 4 rfl rfl rfl).1,
    (spec_c7_fanout opsC7 ops2C7 jobsC7 1 failingAlertJob 4 rfl rfl rfl).2.2.2.2⟩

end Kairos
